import Mathlib

/-!
Shallow embedding of the `mloggers` logging library (Python) and proofs of
the specification claims about it.

The embedding models Python runtime values (`PyVal`), the normalizer
`serialize` from `mloggers/utils.py`, the severity registry from
`mloggers/_log_levels.py`, the base validation/filter of `Logger.log` from
`mloggers/logger.py`, the console sink from `mloggers/console_logger.py`,
the file sink from `mloggers/file_logger.py`, the fan-out dispatcher from
`mloggers/multi_logger.py` and the optional-logger proxy from
`mloggers/optional_logger.py`.

External collaborators (the `json`, `termcolor`, `numpy`, `aenum` packages
and the file system) are modelled at their interface boundary: JSON
dump/parse at the level of the parsed array, `colored` as the identity on
the text (color rendering is out of scope per the spec), `aenum.extend_enum`
as adding/overwriting an entry of the member-name map, and the file as the
content classification that the reading code distinguishes. Python `float`
values and their fixed-precision console rendering are outside the value
universe of this embedding; no claim depends on them.
-/

namespace Mloggers

/-- Python exceptions that the modelled code paths can raise. -/
inductive PyErr where
  | typeError
  | keyError
  | indexError
deriving Repr, DecidableEq

/-- Python runtime values reaching the logging entry points: `None`, `bool`,
`int`, `str`, `list`, `numpy.ndarray` (holding its `tolist` elements),
`dict` with string keys, and a generic object carrying the results of its
optional `toJSON`/`to_json`/`to_dict` members plus its `str()` rendering
(every Python object has a callable `__str__`, so that rendering is total). -/
inductive PyVal where
  | none
  | bool (b : Bool)
  | int (n : Int)
  | str (s : String)
  | list (items : List PyVal)
  | ndarray (items : List PyVal)
  | dict (fields : List (String × PyVal))
  | obj (toJSON to_json to_dict : Option PyVal) (strRepr : String)
deriving Repr

mutual

/-- Python `repr()` of a value. Strings are rendered between quote
characters (Python would switch the quoting style for strings that
themselves contain a quote; that refinement is irrelevant to every claim).
For `obj` the carried `str()` rendering is used; numpy array rendering
is the external collaborator's concern and is approximated. -/
def pyRepr : PyVal → String
  | .none => "None"
  | .bool b => if b then "True" else "False"
  | .int n => toString n
  | .str s => "\x27" ++ s ++ "\x27"
  | .list items => "[" ++ String.intercalate ", " (pyReprList items) ++ "]"
  | .ndarray items =>
      "array([" ++ String.intercalate ", " (pyReprList items) ++ "])"
  | .dict fields =>
      "\x7b" ++ String.intercalate ", " (pyReprFields fields) ++ "\x7d"
  | .obj _ _ _ r => r

/-- Element-wise `repr()` of a list (Python renders list elements with
`repr`, not `str`). -/
def pyReprList : List PyVal → List String
  | [] => []
  | x :: xs => pyRepr x :: pyReprList xs

/-- Field-wise `repr()` rendering of a dict. -/
def pyReprFields : List (String × PyVal) → List String
  | [] => []
  | (k, v) :: xs => ("\x27" ++ k ++ "\x27: " ++ pyRepr v) :: pyReprFields xs

end

/-- Python `str()` of a value: the bare text for a string, `repr`-based
rendering otherwise (for `None`, `bool`, `int`, lists and dicts, `str`
and `repr` agree). -/
def pyStr : PyVal → String
  | .str s => s
  | v => pyRepr v

/-- The result of `getattr(v, "toJSON", None)` restricted to the modelled
value universe: only generic objects expose the member. -/
def pyGetToJSON : PyVal → Option PyVal
  | .obj t _ _ _ => t
  | _ => Option.none

/-- The result of `getattr(v, "to_json", None)`. -/
def pyGetTo_json : PyVal → Option PyVal
  | .obj _ t _ _ => t
  | _ => Option.none

/-- The result of `getattr(v, "to_dict", None)`. -/
def pyGetTo_dict : PyVal → Option PyVal
  | .obj _ _ t _ => t
  | _ => Option.none

/-- Embeds `hasattr(message, "__str__") and callable(getattr(message,
"__str__"))` from `mloggers/utils.py` and `mloggers/logger.py`: every
Python object inherits a callable `object.__str__`, so the test holds for
every value. -/
def pyHasStr (_ : PyVal) : Bool := true

/-- True exactly for `dict` values (`isinstance(message, dict)`). -/
def isPyDict : PyVal → Bool
  | .dict _ => true
  | _ => false

/-- True exactly for `list` values (`isinstance(message, list)`). -/
def isPyList : PyVal → Bool
  | .list _ => true
  | _ => false

/-- True exactly for numpy arrays (`isinstance(message, np.ndarray)`). -/
def isPyNdarray : PyVal → Bool
  | .ndarray _ => true
  | _ => false

mutual

/-- Embeds `serialize` from `mloggers/utils.py`. Branch order follows the
source: list, numpy array (element-wise over `tolist()`), dict, `toJSON`,
`to_json`, `to_dict`, then the string-conversion branch guarded by the
`__str__` test, and finally the generic-coercion / `jsonpickle` / raise
fallback, modelled by the `TypeError` it would end in (the two best-effort
attempts sit inside this dead branch; it is unreachable either way because
the `__str__` test always holds). -/
def serializeE : PyVal → Except PyErr PyVal
  | .list items => do pure (.list (← serializeListE items))
  | .ndarray items => do pure (.list (← serializeListE items))
  | .dict fields => do pure (.dict (← serializeFieldsE fields))
  | v =>
      match pyGetToJSON v with
      | Option.some j => pure j
      | Option.none =>
          match pyGetTo_json v with
          | Option.some j => pure j
          | Option.none =>
              match pyGetTo_dict v with
              | Option.some j => pure j
              | Option.none =>
                  if pyHasStr v then pure (.str (pyStr v))
                  else throw .typeError

/-- Element-wise `serialize` of a list, propagating a raised exception. -/
def serializeListE : List PyVal → Except PyErr (List PyVal)
  | [] => pure []
  | x :: xs => do pure ((← serializeE x) :: (← serializeListE xs))

/-- Value-wise `serialize` of the fields of a dict, keys unchanged. -/
def serializeFieldsE : List (String × PyVal) → Except PyErr (List (String × PyVal))
  | [] => pure []
  | (k, v) :: xs => do pure ((k, (← serializeE v)) :: (← serializeFieldsE xs))

end

mutual

/-- True exactly for the JSON-representable values of the spec: `None`,
booleans, numbers, strings, and lists/dicts built from them. -/
def jsonRepr : PyVal → Bool
  | .none => true
  | .bool _ => true
  | .int _ => true
  | .str _ => true
  | .list items => jsonReprList items
  | .dict fields => jsonReprFields fields
  | _ => false

/-- All elements JSON-representable. -/
def jsonReprList : List PyVal → Bool
  | [] => true
  | x :: xs => jsonRepr x && jsonReprList xs

/-- All field values JSON-representable. -/
def jsonReprFields : List (String × PyVal) → Bool
  | [] => true
  | (_, v) :: xs => jsonRepr v && jsonReprFields xs

end

/-- Properties attached to a severity level (`LogLevel.Properties` in
`mloggers/_log_levels.py`): a display color and a numeric priority. -/
structure LevelProperties where
  color : String
  priority : Int
deriving Repr, DecidableEq

/-- A key of the `_log_level_properties` dict. The dict is seeded with
`LogLevel` enum members as keys, while `register_level` inserts raw
strings; in Python an enum member and a string never compare equal (nor
hash alike), so the two kinds of key are disjoint. A member key is
identified by the member's name, which is unique within the enum. -/
inductive PropKey where
  | member (name : String)
  | rawstr (s : String)
deriving Repr, DecidableEq

/-- State of the severity registry: the `LogLevel` member map (member name
to member value, extended at runtime by `aenum.extend_enum`) and the
`_log_level_properties` dict, both insertion-ordered. -/
structure LevelRegistry where
  members : List (String × String)
  props : List (PropKey × LevelProperties)
deriving Repr

/-- Python dict assignment `d[k] = v`: replaces the value in place when the
key is present, appends otherwise. -/
def pyDictInsert {α β : Type} [DecidableEq α] (k : α) (v : β) :
    List (α × β) → List (α × β)
  | [] => [(k, v)]
  | (k0, v0) :: rest =>
      if k0 = k then (k, v) :: rest else (k0, v0) :: pyDictInsert k v rest

/-- `sys.maxsize` on a 64-bit CPython. -/
def sysMaxsize : Int := 2 ^ 63 - 1

/-- The registry as seeded at import time by `mloggers/_log_levels.py`:
the four built-in members, and `_log_level_properties` keyed by the enum
members themselves. -/
def initialRegistry : LevelRegistry where
  members := [("ERROR", "error"), ("WARN", "warn"), ("INFO", "info"), ("DEBUG", "debug")]
  props := [(.member "ERROR", ⟨"red", sysMaxsize⟩),
            (.member "WARN", ⟨"yellow", 1⟩),
            (.member "INFO", ⟨"cyan", 0⟩),
            (.member "DEBUG", ⟨"magenta", -1⟩)]

/-- Python `str.upper()` for the ASCII strings used as level names. -/
def pyUpper (s : String) : String := String.mk (s.data.map Char.toUpper)

/-- Embeds `register_level` from `mloggers/_log_levels.py`:
`extend_enum(LogLevel, name.upper(), name)` adds the member under the
uppercased name with the original name as its value (the external `aenum`
call is modelled at the interface the spec states: last-write-wins), then
`_log_level_properties[name] = properties` stores the properties under the
raw, original-case string key — not under the new enum member. -/
def register_level (reg : LevelRegistry) (name : String)
    (properties : LevelProperties) : LevelRegistry where
  members := pyDictInsert (pyUpper name) name reg.members
  props := pyDictInsert (.rawstr name) properties reg.props

/-- The `level` argument of a log call: a `LogLevel` member (identified by
its member name), an arbitrary string, or `None`. -/
inductive LevelArg where
  | member (name : String)
  | str (s : String)
  | none
deriving Repr, DecidableEq

/-- `DEFAULT_IMPORTANCE = _log_level_properties[LogLevel.INFO].priority`,
evaluated once against the seed registry at import time of
`mloggers/logger.py` (the dead arm is never taken: the seed contains
`INFO`). -/
def DEFAULT_IMPORTANCE : Int :=
  match List.lookup (PropKey.member "INFO") initialRegistry.props with
  | Option.some p => p.priority
  | Option.none => 0

/-- Some message is a dict (`any(isinstance(message, dict) for ...)`). -/
def anyDict (msgs : List PyVal) : Bool := msgs.any isPyDict

/-- Some message is not a dict. -/
def anyNonDict (msgs : List PyVal) : Bool := msgs.any fun m => !isPyDict m

/-- Embeds the base `Logger.log` of `mloggers/logger.py`: the per-message
type check (whose `TypeError` is dead code, since every value passes the
`__str__` test), the homogeneity check raising `TypeError` on a mix of
dict and non-dict messages, then the severity filter: a `LogLevel` member
looks its priority up in `_log_level_properties` (`KeyError` when the
member is not a key) and is dropped when that priority is below the
minimum; a plain-string level is dropped when `DEFAULT_IMPORTANCE` is
below the minimum; level `None` always passes. Returns `true` exactly
when the message survives the filter. -/
def loggerLogBase (props : List (PropKey × LevelProperties)) (minPriority : Int)
    (messages : List PyVal) (level : LevelArg) : Except PyErr Bool :=
  if messages.any fun m => !isPyDict m && !pyHasStr m then throw .typeError
  else if anyDict messages && anyNonDict messages then throw .typeError
  else
    match level with
    | .member name =>
        match List.lookup (PropKey.member name) props with
        | Option.none => throw .keyError
        | Option.some p =>
            if p.priority < minPriority then pure false else pure true
    | .str _ => if DEFAULT_IMPORTANCE < minPriority then pure false else pure true
    | .none => pure true

/-- `termcolor.colored`, modelled as the identity on the text: ANSI color
codes are a display concern of the external collaborator. -/
def colored (text : String) (_color : String) : String := text

/-- A run of spaces, `" " * n`. -/
def spaces (n : Nat) : String := String.mk (List.replicate n (Char.ofNat 32))

/-- `" ".join(str(message) for message in messages)`. -/
def strJoin (msgs : List PyVal) : String :=
  String.intercalate " " (msgs.map pyStr)

/-- The `[LEVEL] ` tag of the console sink, uncolored and colored
(`level_str` and `level_clr` in `ConsoleLogger.log`): empty for level
`None`; for a member, the member name with the color looked up in
`_log_level_properties` (a `KeyError` when the member is not a key); for a
plain string, the uppercased string colored green. -/
def consoleLevelParts (props : List (PropKey × LevelProperties)) :
    LevelArg → Except PyErr (String × String)
  | .none => pure ("", "")
  | .member n =>
      let ls := "[" ++ n ++ "] "
      match List.lookup (PropKey.member n) props with
      | Option.none => throw .keyError
      | Option.some p => pure (ls, colored ls p.color)
  | .str s =>
      let ls := "[" ++ pyUpper s ++ "] "
      pure (ls, colored ls "green")

/-- One printed line for a record key: a bare `key` header when the value
is `None`, otherwise `key: value` with the serialized value (the caught
`TypeError` branch would print an inline error line instead, but
`serialize` never raises). The float fixed-precision branch is outside the
modelled value universe. -/
def consoleKeyLine (levelClr time key : String) (value : PyVal) : String :=
  match value with
  | .none => levelClr ++ time ++ " " ++ key
  | v =>
      match serializeE v with
      | .ok w => levelClr ++ time ++ " " ++ key ++ ": " ++ pyStr w
      | .error _ =>
          colored "[ERROR]" "red" ++
            " [ConsoleLogger] Could not convert the message to a JSON serializable format"

/-- Lines after the first record key: the timestamp and level-tag prefixes
are blanked to their own widths (the level width is that of the uncolored
tag). -/
def consoleRecordCont (blankLvl blankTime : String) :
    List (String × PyVal) → List String
  | [] => []
  | (k, v) :: rest =>
      consoleKeyLine blankLvl blankTime k v :: consoleRecordCont blankLvl blankTime rest

/-- All printed lines for a record message: the first key keeps the real
prefixes, the following keys use blanked prefixes of the same widths. -/
def consoleRecordLines (levelStr levelClr time : String) :
    List (String × PyVal) → List String
  | [] => []
  | (k, v) :: rest =>
      consoleKeyLine levelClr time k v ::
        consoleRecordCont (spaces levelStr.length) (spaces time.length) rest

/-- The console rendering of one message: a record prints one line per
key; anything else passes the (always-true) `__str__` test and prints one
line with its `str()` (the final `serialize`-based fallback of
`ConsoleLogger.log` is dead code behind that test). -/
def consoleLogSingleBody (levelStr levelClr time : String) : PyVal → List String
  | .dict fields => consoleRecordLines levelStr levelClr time fields
  | m => [levelClr ++ time ++ " " ++ pyStr m]

/-- The recursive per-message call `self.log(message, level=level)` that
`ConsoleLogger.log` makes for each record of a multi-record batch: it
re-runs the base check/filter and the level rendering, then prints the
single message. -/
def consoleLogOne (props : List (PropKey × LevelProperties)) (minP : Int)
    (time : String) (m : PyVal) (level : LevelArg) : Except PyErr (List String) :=
  match loggerLogBase props minP [m] level with
  | .error e => .error e
  | .ok emit =>
      if !emit then .ok []
      else
        match consoleLevelParts props level with
        | .error e => .error e
        | .ok (ls, lc) => .ok (consoleLogSingleBody ls lc time m)

/-- A for-loop of fallible calls, aborting at the first raised exception. -/
def exceptMapM {α β : Type} (f : α → Except PyErr β) : List α → Except PyErr (List β)
  | [] => .ok []
  | x :: xs =>
      match f x with
      | .error e => .error e
      | .ok r =>
          match exceptMapM f xs with
          | .error e => .error e
          | .ok rs => .ok (r :: rs)

/-- Embeds `ConsoleLogger.log`: base validation/filter, the timestamp and
level tag, then the multi-message dispatch — several non-dict messages are
joined by one space into a single text; several messages containing a dict
are logged by one recursive call each; a single message is rendered
directly; an empty call hits `messages[0]` and raises `IndexError`. The
result lists the printed lines. -/
def consoleLog (props : List (PropKey × LevelProperties)) (minP : Int)
    (time : String) (msgs : List PyVal) (level : LevelArg) :
    Except PyErr (List String) :=
  match loggerLogBase props minP msgs level with
  | .error e => .error e
  | .ok emit =>
      if !emit then .ok []
      else
        match consoleLevelParts props level with
        | .error e => .error e
        | .ok (ls, lc) =>
            if msgs.length > 1 then
              if msgs.all fun m => pyHasStr m && !isPyDict m then
                .ok (consoleLogSingleBody ls lc time (.str (strJoin msgs)))
              else
                match exceptMapM (fun m => consoleLogOne props minP time m level) msgs with
                | .error e => .error e
                | .ok outs => .ok outs.flatten
            else
              match msgs with
              | [] => .error .indexError
              | m :: _ => .ok (consoleLogSingleBody ls lc time m)

/-- One persisted log entry of the file sink (`{timestamp, level?,
message}`). -/
structure LogEntry where
  timestamp : String
  level : Option String
  message : PyVal
deriving Repr

/-- The state of the log file, at the granularity the reading code of
`FileLogger.log` distinguishes: empty-ish content (the empty string,
whitespace, or the literal `[]`), a decodable JSON array of entries, or
undecodable content (which a dump aborted halfway also leaves behind). -/
inductive FileContent where
  | emptyish
  | jsonArr (logs : List LogEntry)
  | malformed
deriving Repr

/-- The read phase of `FileLogger.log`: empty-ish content stands for an
empty entry list, a JSON array parses to its entries, and anything else
fails to decode (`json.decoder.JSONDecodeError` → warning, abort). -/
def fileReadLogs : FileContent → Option (List LogEntry)
  | .emptyish => Option.some []
  | .jsonArr logs => Option.some logs
  | .malformed => Option.none

/-- The `level` field persisted in a file entry: `level.name` for a member,
`str(level).upper()` for a plain string, absent for `None`. -/
def entryLevelName : LevelArg → Option String
  | .member n => Option.some n
  | .str s => Option.some (pyUpper s)
  | .none => Option.none

/-- The serialize → read → append → write → rollback body that
`FileLogger.log` runs for one message. `readOk` injects an exception of
the read phase (reported, call abandoned), `writeOk` one of the
append-and-write step, `rollbackOk` one of the rollback write. A failed
dump has already truncated the file, so a failed rollback leaves
undecodable content. -/
def fileWritePhase (st : FileContent) (message : PyVal) (level : LevelArg)
    (now : String) (readOk writeOk rollbackOk : Bool) : FileContent :=
  match serializeE message with
  | .error _ => st
  | .ok m =>
      if !readOk then st
      else
        match fileReadLogs st with
        | Option.none => st
        | Option.some prevLogs =>
            let entry : LogEntry := ⟨now, entryLevelName level, m⟩
            if writeOk then .jsonArr (prevLogs ++ [entry])
            else if rollbackOk then .jsonArr prevLogs
            else .malformed

/-- Embeds `FileLogger.log`: base validation/filter, then the
multi-message dispatch mirroring the console sink (several non-dict
messages are joined into one text; several messages containing a dict run
one recursive write each, whose re-run of the base check/filter has the
same outcome; the empty call raises `IndexError`), each write going
through `fileWritePhase`. Returns the file content after the call; a
raised `Except.error` leaves the file untouched, since validation happens
before any file access. -/
def fileLoggerLog (props : List (PropKey × LevelProperties)) (minP : Int)
    (now : String) (readOk writeOk rollbackOk : Bool) (st : FileContent)
    (messages : List PyVal) (level : LevelArg) : Except PyErr FileContent :=
  match loggerLogBase props minP messages level with
  | .error e => .error e
  | .ok emit =>
      if !emit then .ok st
      else
        if messages.length > 1 then
          if messages.all fun m => pyHasStr m && !isPyDict m then
            .ok (fileWritePhase st (.str (strJoin messages)) level now readOk writeOk rollbackOk)
          else
            .ok (messages.foldl
              (fun s m => fileWritePhase s m level now readOk writeOk rollbackOk) st)
        else
          match messages with
          | [] => .error .indexError
          | m :: _ => .ok (fileWritePhase st m level now readOk writeOk rollbackOk)

/-- The concrete logger classes a fan-out sink can be an instance of. -/
inductive SinkKind where
  | console
  | file
  | wandb
  | optionalSink
deriving Repr, DecidableEq

/-- A sink owned by the dispatcher: its concrete kind (what the mask is
matched against) and the outcome of its `logger(*messages, level=level)`
invocation for the call being modelled — `none` when the emit returns
normally, `some e` when it raises `e` (console and file sinks swallow
serialization and I/O errors but do propagate validation `TypeError`s and
the custom-level `KeyError`; an `OptionalLogger` wrapping `None` raises
`TypeError` on the keyword argument `level`). -/
structure Sink where
  kind : SinkKind
  emitOutcome : Option PyErr
deriving Repr, DecidableEq

/-- The observable outcome of a fan-out: which sink indices had their emit
attempted, which completed it, and the exception (if any) that aborted the
loop. -/
structure FanOutResult where
  attempted : List Nat
  completed : List Nat
  err : Option PyErr
deriving Repr, DecidableEq

/-- The `for logger in [...]` loop of `MultiLogger.log`: each selected sink
is invoked in order; the loop body has no exception guard, so a raise
aborts the loop and propagates, leaving later sinks untouched while the
completed emits of earlier sinks persist. -/
def runSinks : List (Nat × Sink) → FanOutResult
  | [] => ⟨[], [], Option.none⟩
  | (i, s) :: rest =>
      match s.emitOutcome with
      | Option.some e => ⟨[i], [], Option.some e⟩
      | Option.none =>
          let r := runSinks rest
          ⟨i :: r.attempted, i :: r.completed, r.err⟩

/-- The sink selection of `MultiLogger.log`: the sinks (with their
positions) that are not an instance of any kind in the effective mask. -/
def maskSelect (sinks : List Sink) (eff : List SinkKind) : List (Nat × Sink) :=
  sinks.enum.filter fun p => !(eff.any fun t => p.2.kind == t)

/-- Embeds `MultiLogger.log`: the effective mask is the per-call mask when
given, else the default mask; the non-masked sinks are then invoked in
order with no per-sink guard. -/
def multiLog (sinks : List Sink) (defaultMask : List SinkKind)
    (mask : Option (List SinkKind)) : FanOutResult :=
  runSinks (maskSelect sinks (mask.getD defaultMask))

/-- The attributes of a wrapped logger, for the optional-logger proxy:
which attribute names exist on it and, for each, the behavior of calling
the bound attribute with positional and keyword arguments. -/
def WrappedLogger : Type :=
  String → Option (List PyVal → List (String × PyVal) → Except PyErr PyVal)

/-- What `OptionalLogger.__getattribute__` hands back for an attribute
other than the internal wrapper field: the bound attribute of the wrapped
logger, or — when the wrapped logger is `None` or lacks the attribute, so
`getattr` raises `AttributeError` — the fallback `lambda *_: None`. -/
inductive OptAttr where
  | bound (f : List PyVal → List (String × PyVal) → Except PyErr PyVal)
  | noopLambda

/-- Embeds the attribute routing of `OptionalLogger.__getattribute__`. -/
def optGetAttr (wrapped : Option WrappedLogger) (attr : String) : OptAttr :=
  match wrapped with
  | Option.none => .noopLambda
  | Option.some w =>
      match w attr with
      | Option.some f => .bound f
      | Option.none => .noopLambda

/-- Calling the fallback `lambda *_: None`: it accepts any positional
arguments, but has no keyword parameters, so any keyword argument raises
`TypeError`. -/
def callNoopLambda (_pos : List PyVal) (kw : List (String × PyVal)) :
    Except PyErr PyVal :=
  if kw.isEmpty then pure .none else throw .typeError

/-- A call `OptionalLogger(wrapped).attr(*pos, **kw)` as routed by
`__getattribute__`. -/
def optionalCall (wrapped : Option WrappedLogger) (attr : String)
    (pos : List PyVal) (kw : List (String × PyVal)) : Except PyErr PyVal :=
  match optGetAttr wrapped attr with
  | .bound f => f pos kw
  | .noopLambda => callNoopLambda pos kw

theorem lookup_pyDictInsert_self {α β : Type} [DecidableEq α] (k : α) (v : β) :
    ∀ l : List (α × β), List.lookup k (pyDictInsert k v l) = Option.some v
  | [] => by simp [pyDictInsert]
  | (k0, v0) :: rest => by
      by_cases h : k0 = k
      · simp [pyDictInsert, h]
      · simp only [pyDictInsert, if_neg h, List.lookup]
        have hb : (k == k0) = false := by
          simp only [beq_eq_false_iff_ne]
          exact fun he => h he.symm
        simp [hb, lookup_pyDictInsert_self k v rest]

theorem lookup_pyDictInsert_ne {α β : Type} [DecidableEq α] (k q : α) (v : β)
    (hne : q ≠ k) :
    ∀ l : List (α × β), List.lookup q (pyDictInsert k v l) = List.lookup q l
  | [] => by simp [pyDictInsert, List.lookup, beq_eq_false_iff_ne.mpr hne]
  | (k0, v0) :: rest => by
      by_cases h : k0 = k
      · subst h
        simp [pyDictInsert, List.lookup, beq_eq_false_iff_ne.mpr hne]
      · simp only [pyDictInsert, if_neg h, List.lookup]
        cases hq : (q == k0) with
        | true => simp
        | false => simp [lookup_pyDictInsert_ne k q v hne rest]

mutual

/-- Every value serializes without an exception (the fallback raise of
`serialize` is unreachable). -/
theorem serializeE_total : ∀ v : PyVal, ∃ r, serializeE v = Except.ok r
  | .none => ⟨.str "None", rfl⟩
  | .bool b => by cases b <;> exact ⟨_, rfl⟩
  | .int n => ⟨.str (toString n), rfl⟩
  | .str s => ⟨.str s, rfl⟩
  | .list items => by
      obtain ⟨rs, h⟩ := serializeListE_total items
      exact ⟨.list rs, by simp [serializeE, h]⟩
  | .ndarray items => by
      obtain ⟨rs, h⟩ := serializeListE_total items
      exact ⟨.list rs, by simp [serializeE, h]⟩
  | .dict fields => by
      obtain ⟨rs, h⟩ := serializeFieldsE_total fields
      exact ⟨.dict rs, by simp [serializeE, h]⟩
  | .obj t j d r => by
      cases t with
      | some x => exact ⟨x, rfl⟩
      | none =>
          cases j with
          | some x => exact ⟨x, rfl⟩
          | none =>
              cases d with
              | some x => exact ⟨x, rfl⟩
              | none => exact ⟨.str r, rfl⟩

theorem serializeListE_total : ∀ l : List PyVal, ∃ rs, serializeListE l = Except.ok rs
  | [] => ⟨[], rfl⟩
  | x :: xs => by
      obtain ⟨r, hx⟩ := serializeE_total x
      obtain ⟨rs, hxs⟩ := serializeListE_total xs
      exact ⟨r :: rs, by simp only [serializeListE, hx, hxs]; rfl⟩

theorem serializeFieldsE_total :
    ∀ f : List (String × PyVal), ∃ rs, serializeFieldsE f = Except.ok rs
  | [] => ⟨[], rfl⟩
  | (k, v) :: xs => by
      obtain ⟨r, hv⟩ := serializeE_total v
      obtain ⟨rs, hxs⟩ := serializeFieldsE_total xs
      exact ⟨(k, r) :: rs, by simp only [serializeFieldsE, hv, hxs]; rfl⟩

end

/-- Serializing a string returns it unchanged (`str(s) == s`). -/
theorem serializeE_str (s : String) : serializeE (.str s) = Except.ok (.str s) := rfl

mutual

/-- On a JSON-representable value, `serialize` succeeds and its result is a
fixed point of `serialize`. -/
theorem serializeE_fix :
    ∀ v : PyVal, jsonRepr v = true → ∃ w, serializeE v = Except.ok w ∧ serializeE w = Except.ok w
  | .none, _ => ⟨.str "None", rfl, rfl⟩
  | .bool b, _ => by cases b <;> exact ⟨_, rfl, rfl⟩
  | .int n, _ => ⟨.str (toString n), rfl, serializeE_str _⟩
  | .str s, _ => ⟨.str s, rfl, rfl⟩
  | .list items, h => by
      obtain ⟨ws, h1, h2⟩ := serializeListE_fix items (by simpa [jsonRepr] using h)
      exact ⟨.list ws, by simp [serializeE, h1], by simp [serializeE, h2]⟩
  | .dict fields, h => by
      obtain ⟨ws, h1, h2⟩ := serializeFieldsE_fix fields (by simpa [jsonRepr] using h)
      exact ⟨.dict ws, by simp [serializeE, h1], by simp [serializeE, h2]⟩

theorem serializeListE_fix :
    ∀ l : List PyVal, jsonReprList l = true →
      ∃ ws, serializeListE l = Except.ok ws ∧ serializeListE ws = Except.ok ws
  | [], _ => ⟨[], rfl, rfl⟩
  | x :: xs, h => by
      rw [jsonReprList, Bool.and_eq_true] at h
      obtain ⟨w, hw1, hw2⟩ := serializeE_fix x h.1
      obtain ⟨ws, hs1, hs2⟩ := serializeListE_fix xs h.2
      exact ⟨w :: ws, by simp only [serializeListE, hw1, hs1]; rfl,
        by simp only [serializeListE, hw2, hs2]; rfl⟩

theorem serializeFieldsE_fix :
    ∀ f : List (String × PyVal), jsonReprFields f = true →
      ∃ ws, serializeFieldsE f = Except.ok ws ∧ serializeFieldsE ws = Except.ok ws
  | [], _ => ⟨[], rfl, rfl⟩
  | (k, v) :: xs, h => by
      rw [jsonReprFields, Bool.and_eq_true] at h
      obtain ⟨w, hw1, hw2⟩ := serializeE_fix v h.1
      obtain ⟨ws, hs1, hs2⟩ := serializeFieldsE_fix xs h.2
      exact ⟨(k, w) :: ws, by simp only [serializeFieldsE, hw1, hs1]; rfl,
        by simp only [serializeFieldsE, hw2, hs2]; rfl⟩

end

theorem DEFAULT_IMPORTANCE_eq : DEFAULT_IMPORTANCE = 0 := rfl

/-- The per-message type check of the base `Logger.log` never fires: every
value passes the `__str__` test. -/
theorem typecheck_dead (msgs : List PyVal) :
    (msgs.any fun m => !isPyDict m && !pyHasStr m) = false := by
  simp [pyHasStr]

/-- The base check/filter does not depend on the messages beyond the
homogeneity test: two unmixed batches get the same outcome. -/
theorem loggerLogBase_eq_of_not_mixed (props : List (PropKey × LevelProperties))
    (minP : Int) (msgs1 msgs2 : List PyVal) (level : LevelArg)
    (h1 : (anyDict msgs1 && anyNonDict msgs1) = false)
    (h2 : (anyDict msgs2 && anyNonDict msgs2) = false) :
    loggerLogBase props minP msgs1 level = loggerLogBase props minP msgs2 level := by
  unfold loggerLogBase
  rw [typecheck_dead, typecheck_dead, h1, h2]

/-- C1: for every logger and every log call (the registry contents, the
minimum priority and the unmixed message batch are arbitrary): a level that
is a registered `LogLevel` passes the severity filter iff its priority is
`≥` the logger's minimum priority (a message at exactly the threshold
passes); level `None` always passes; an arbitrary string level passes iff
the default INFO priority `0` is `≥` the minimum priority. -/
theorem severity_filter (props : List (PropKey × LevelProperties)) (minP : Int)
    (msgs : List PyVal) (hmix : (anyDict msgs && anyNonDict msgs) = false) :
    (∀ name p, List.lookup (PropKey.member name) props = Option.some p →
        loggerLogBase props minP msgs (.member name)
          = Except.ok (decide (minP ≤ p.priority))) ∧
    loggerLogBase props minP msgs .none = Except.ok true ∧
    (∀ s, loggerLogBase props minP msgs (.str s)
        = Except.ok (decide (minP ≤ (0 : Int)))) := by
  refine ⟨fun name p hp => ?_, ?_, fun s => ?_⟩
  · simp only [loggerLogBase, typecheck_dead, hmix, Bool.false_eq_true, if_false, hp]
    by_cases h : p.priority < minP
    · rw [if_pos h, decide_eq_false (by omega)]; rfl
    · rw [if_neg h, decide_eq_true (by omega)]; rfl
  · simp only [loggerLogBase, typecheck_dead, hmix, Bool.false_eq_true, if_false]
    rfl
  · simp only [loggerLogBase, typecheck_dead, hmix, Bool.false_eq_true, if_false,
      DEFAULT_IMPORTANCE_eq]
    by_cases h : (0 : Int) < minP
    · rw [if_pos h, decide_eq_false (by omega)]; rfl
    · rw [if_neg h, decide_eq_true (by omega)]; rfl

/-- Concrete instantiation of `severity_filter` at threshold = INFO
priority: WARN is emitted, DEBUG is not, `None` passes even at the maximal
threshold, and an arbitrary string passes at threshold 0. -/
theorem severity_filter_witness :
    loggerLogBase initialRegistry.props 0 [.str "m"] (.member "WARN") = Except.ok true ∧
    loggerLogBase initialRegistry.props 0 [.str "m"] (.member "DEBUG") = Except.ok false ∧
    loggerLogBase initialRegistry.props sysMaxsize [.str "m"] .none = Except.ok true ∧
    loggerLogBase initialRegistry.props 0 [.str "m"] (.str "custom") = Except.ok true := by
  have h := severity_filter initialRegistry.props 0 [.str "m"] rfl
  have h2 := severity_filter initialRegistry.props sysMaxsize [.str "m"] rfl
  exact ⟨h.1 "WARN" ⟨"yellow", 1⟩ rfl, h.1 "DEBUG" ⟨"magenta", -1⟩ rfl,
    h2.2.1, h.2.2 "custom"⟩

/-- C6: for every JSON-representable value `v` (strings, numbers, booleans,
null, and lists/dicts built from them), the normalizer is idempotent:
`serialize(serialize(v)) == serialize(v)` (transcribed to the exception
monad as composition by `bind`). -/
theorem serialize_idempotent (v : PyVal) (h : jsonRepr v = true) :
    (serializeE v >>= serializeE) = serializeE v := by
  obtain ⟨w, h1, h2⟩ := serializeE_fix v h
  rw [h1]
  simpa using h2

/-- Concrete instantiation of `serialize_idempotent` at a nested
JSON-representable value. -/
theorem serialize_idempotent_witness :
    jsonRepr (.dict [("a", .int 1), ("b", .list [.bool true, .none])]) = true ∧
      (serializeE (.dict [("a", .int 1), ("b", .list [.bool true, .none])]) >>= serializeE)
        = serializeE (.dict [("a", .int 1), ("b", .list [.bool true, .none])]) :=
  ⟨rfl, serialize_idempotent (.dict [("a", .int 1), ("b", .list [.bool true, .none])]) rfl⟩

/-- C10: for every input value that is not a list, numpy array, or dict and
exposes none of `toJSON`/`to_json`/`to_dict`, `serialize` returns
`str(value)`; and `serialize` never raises at all (the string-conversion
branch always matches because every object has a callable `__str__`, so the
generic-coercion/`jsonpickle`/`TypeError` fallback is unreachable). -/
theorem serialize_str_branch (v : PyVal) :
    (∃ r, serializeE v = Except.ok r) ∧
      (isPyList v = false → isPyNdarray v = false → isPyDict v = false →
        pyGetToJSON v = Option.none → pyGetTo_json v = Option.none →
        pyGetTo_dict v = Option.none →
        serializeE v = Except.ok (.str (pyStr v))) := by
  refine ⟨serializeE_total v, fun hl hn hd h1 h2 h3 => ?_⟩
  cases v with
  | list items => simp [isPyList] at hl
  | ndarray items => simp [isPyNdarray] at hn
  | dict fields => simp [isPyDict] at hd
  | none => rfl
  | bool b => cases b <;> rfl
  | int n => rfl
  | str s => rfl
  | obj t j d r =>
      simp only [pyGetToJSON] at h1
      simp only [pyGetTo_json] at h2
      simp only [pyGetTo_dict] at h3
      subst h1; subst h2; subst h3
      rfl

/-- Concrete instantiation of `serialize_str_branch`: the numeric, boolean
and `None` leaves are converted to their string representations. -/
theorem serialize_str_branch_witness :
    serializeE (.int 5) = Except.ok (.str "5") ∧
      serializeE (.bool true) = Except.ok (.str "True") ∧
      serializeE .none = Except.ok (.str "None") :=
  ⟨(serialize_str_branch (.int 5)).2 rfl rfl rfl rfl rfl rfl,
    (serialize_str_branch (.bool true)).2 rfl rfl rfl rfl rfl rfl,
    (serialize_str_branch .none).2 rfl rfl rfl rfl rfl rfl⟩

/-- C7 counterexample: after `register("verbose", blue, 2)`, the properties
are not stored under the uppercased name (neither as a raw string nor as
the member key the logging path uses); they sit under the original-case raw
string, and a log call with the new member raises `KeyError` instead of
finding them. -/
theorem register_level_cex :
    List.lookup (PropKey.member "VERBOSE")
        (register_level initialRegistry "verbose" ⟨"blue", 2⟩).props = Option.none ∧
    List.lookup (PropKey.rawstr "VERBOSE")
        (register_level initialRegistry "verbose" ⟨"blue", 2⟩).props = Option.none ∧
    List.lookup (PropKey.rawstr "verbose")
        (register_level initialRegistry "verbose" ⟨"blue", 2⟩).props
      = Option.some ⟨"blue", 2⟩ ∧
    loggerLogBase (register_level initialRegistry "verbose" ⟨"blue", 2⟩).props 0
        [.str "hello"] (.member "VERBOSE") = Except.error .keyError :=
  ⟨rfl, rfl, rfl, rfl⟩

/-- C7 amended: `register(name, color, priority)` adds the enum member
under the uppercased name (with the original name as its value) and stores
the properties under the raw original-case name string; re-registering the
same name overwrites the stored properties (last-write-wins, no error);
the properties are retrievable by that raw-string key — which is not the
member key the logging path looks up, whose binding is unchanged by the
registration. -/
theorem register_level_spec (reg : LevelRegistry) (name : String)
    (p1 p2 : LevelProperties) :
    List.lookup (pyUpper name) (register_level reg name p1).members = Option.some name ∧
    List.lookup (PropKey.rawstr name) (register_level reg name p1).props = Option.some p1 ∧
    List.lookup (PropKey.rawstr name)
        (register_level (register_level reg name p1) name p2).props = Option.some p2 ∧
    List.lookup (PropKey.member (pyUpper name)) (register_level reg name p1).props
      = List.lookup (PropKey.member (pyUpper name)) reg.props :=
  ⟨lookup_pyDictInsert_self _ _ _, lookup_pyDictInsert_self _ _ _,
    lookup_pyDictInsert_self _ _ _,
    lookup_pyDictInsert_ne _ _ _ (by simp) _⟩

/-- C9: `register_level` stores the properties under the original-case raw
string while the enum member is a different key; hence for every custom
level registered on a registry whose properties do not already contain the
uppercased member key, a log call passing the resulting `LogLevel` member
raises `KeyError` in the priority lookup of the severity filter — and the
console sink's color lookup fails the same way — instead of the message
being filtered and rendered normally. -/
theorem custom_level_keyerror (reg : LevelRegistry) (name : String)
    (p : LevelProperties) (minP : Int) (time : String) (msgs : List PyVal)
    (hfresh : List.lookup (PropKey.member (pyUpper name)) reg.props = Option.none)
    (hmix : (anyDict msgs && anyNonDict msgs) = false) :
    loggerLogBase (register_level reg name p).props minP msgs (.member (pyUpper name))
      = Except.error .keyError ∧
    consoleLevelParts (register_level reg name p).props (.member (pyUpper name))
      = Except.error .keyError ∧
    consoleLog (register_level reg name p).props minP time msgs (.member (pyUpper name))
      = Except.error .keyError := by
  have hlk : List.lookup (PropKey.member (pyUpper name))
      (register_level reg name p).props = Option.none :=
    (lookup_pyDictInsert_ne (PropKey.rawstr name) (PropKey.member (pyUpper name)) p
      (by simp) reg.props).trans hfresh
  have hbase : loggerLogBase (register_level reg name p).props minP msgs
      (.member (pyUpper name)) = Except.error .keyError := by
    simp only [loggerLogBase, typecheck_dead, hmix, Bool.false_eq_true, if_false, hlk]
    rfl
  refine ⟨hbase, ?_, ?_⟩
  · simp only [consoleLevelParts, hlk]
    rfl
  · simp only [consoleLog, hbase]

/-- Concrete instantiation of `custom_level_keyerror`: registering
`"verbose"` and then logging at the resulting `VERBOSE` member raises
`KeyError` even at a permissive threshold. -/
theorem custom_level_keyerror_witness :
    loggerLogBase (register_level initialRegistry "verbose" ⟨"blue", 2⟩).props (-5)
        [.str "hello"] (.member "VERBOSE") = Except.error .keyError ∧
    consoleLog (register_level initialRegistry "verbose" ⟨"blue", 2⟩).props (-5)
        "[10:00:00]" [.str "hello"] (.member "VERBOSE") = Except.error .keyError := by
  have h := custom_level_keyerror initialRegistry "verbose" ⟨"blue", 2⟩ (-5)
    "[10:00:00]" [.str "hello"] rfl rfl
  exact ⟨h.1, h.2.2⟩

/-- The recursive per-message call of the console sink coincides with a
singleton call of its public entry point. -/
theorem consoleLogOne_eq (props : List (PropKey × LevelProperties)) (minP : Int)
    (time : String) (m : PyVal) (level : LevelArg) :
    consoleLogOne props minP time m level = consoleLog props minP time [m] level := by
  unfold consoleLogOne consoleLog
  cases hb : loggerLogBase props minP [m] level with
  | error e => rfl
  | ok emit =>
      cases emit with
      | false => rfl
      | true =>
          cases hp : consoleLevelParts props level with
          | error e => rfl
          | ok pr => cases pr with | mk ls lc => rfl

/-- A loop of calls each returning `ok []` flattens to no output. -/
theorem exceptMapM_const_nil {β : Type} (f : PyVal → Except PyErr (List β)) :
    ∀ l : List PyVal, (∀ m ∈ l, f m = Except.ok []) →
      (exceptMapM f l).map List.flatten = Except.ok []
  | [], _ => rfl
  | x :: xs, h => by
      have hrec := exceptMapM_const_nil f xs fun m hm => h m (by simp [hm])
      rw [exceptMapM, h x (by simp)]
      cases hx : exceptMapM f xs with
      | error e => rw [hx] at hrec; simp [Except.map] at hrec
      | ok rs =>
          rw [hx] at hrec
          simp only [Except.map] at hrec ⊢
          simpa using hrec

/-- C4: for every log call with multiple raw inputs: a mix of dict and
non-dict inputs raises `TypeError` to the caller with no output emitted;
an all-text batch is logged exactly like the single text joining the
inputs with one space; an all-record batch is logged exactly like one
independent singleton call per record, in order. -/
theorem log_homogeneity (props : List (PropKey × LevelProperties)) (minP : Int)
    (time : String) (msgs : List PyVal) (level : LevelArg) :
    (anyDict msgs = true → anyNonDict msgs = true →
        consoleLog props minP time msgs level = Except.error .typeError) ∧
    (1 < msgs.length → anyDict msgs = false →
        consoleLog props minP time msgs level
          = consoleLog props minP time [.str (strJoin msgs)] level) ∧
    (1 < msgs.length → anyNonDict msgs = false →
        consoleLog props minP time msgs level
          = (exceptMapM (fun m => consoleLog props minP time [m] level) msgs).map
              List.flatten) := by
  refine ⟨fun hd hnd => ?_, fun hlen hnd => ?_, fun hlen hd => ?_⟩
  · have hb : loggerLogBase props minP msgs level = Except.error .typeError := by
      simp only [loggerLogBase, typecheck_dead, Bool.false_eq_true, if_false, hd, hnd]
      rfl
    simp only [consoleLog, hb]
  · have hmix1 : (anyDict msgs && anyNonDict msgs) = false := by
      rw [hnd]; rfl
    have hbase : loggerLogBase props minP [.str (strJoin msgs)] level
        = loggerLogBase props minP msgs level :=
      loggerLogBase_eq_of_not_mixed props minP _ _ level rfl hmix1
    have hall : (msgs.all fun m => pyHasStr m && !isPyDict m) = true := by
      rw [List.all_eq_true]
      intro m hm
      have : isPyDict m = false := by
        have := (List.any_eq_false).mp hnd m hm
        simpa using this
      simp [pyHasStr, this]
    unfold consoleLog
    rw [hbase]
    cases hb : loggerLogBase props minP msgs level with
    | error e => rfl
    | ok emit =>
        cases emit with
        | false => rfl
        | true =>
            cases hp : consoleLevelParts props level with
            | error e => rfl
            | ok pr =>
                cases pr with
                | mk ls lc =>
                    simp only [if_pos hlen, hall, if_true]
                    rfl
  · have hmix1 : (anyDict msgs && anyNonDict msgs) = false := by
      rw [hd]; simp
    have hdict : ∀ m ∈ msgs, isPyDict m = true := by
      intro m hm
      have := (List.any_eq_false).mp hd m hm
      simpa using this
    have hone : ∀ m ∈ msgs, loggerLogBase props minP [m] level
        = loggerLogBase props minP msgs level := by
      intro m hm
      refine loggerLogBase_eq_of_not_mixed props minP _ _ level ?_ hmix1
      simp [anyDict, anyNonDict, hdict m hm]
    have hfun : (fun m => consoleLogOne props minP time m level)
        = fun m => consoleLog props minP time [m] level :=
      funext fun m => consoleLogOne_eq props minP time m level
    obtain ⟨m0, rest, hcons⟩ : ∃ m0 rest, msgs = m0 :: rest := by
      cases msgs with
      | nil => simp at hlen
      | cons a as => exact ⟨a, as, rfl⟩
    have hnotall : (msgs.all fun m => pyHasStr m && !isPyDict m) = false := by
      subst hcons
      have := hdict m0 (by simp)
      simp [List.all_cons, pyHasStr, this]
    cases hb : loggerLogBase props minP msgs level with
    | error e =>
        have hL : consoleLog props minP time msgs level = Except.error e := by
          unfold consoleLog
          rw [hb]
        have h0 : consoleLog props minP time [m0] level = Except.error e := by
          unfold consoleLog
          rw [hone m0 (by rw [hcons]; simp), hb]
        rw [hL, hcons, exceptMapM, h0]
        rfl
    | ok emit =>
        cases emit with
        | false =>
            have hL : consoleLog props minP time msgs level = Except.ok [] := by
              unfold consoleLog
              rw [hb]
              rfl
            have h0 : ∀ m ∈ msgs, consoleLog props minP time [m] level = Except.ok [] := by
              intro m hm
              unfold consoleLog
              rw [hone m hm, hb]
              rfl
            rw [hL]
            exact (exceptMapM_const_nil _ msgs h0).symm
        | true =>
            cases hp : consoleLevelParts props level with
            | error e =>
                have hL : consoleLog props minP time msgs level = Except.error e := by
                  unfold consoleLog
                  rw [hb, hp]
                  rfl
                have h0 : consoleLog props minP time [m0] level = Except.error e := by
                  unfold consoleLog
                  rw [hone m0 (by rw [hcons]; simp), hb, hp]
                  rfl
                rw [hL, hcons, exceptMapM, h0]
                rfl
            | ok pr =>
                cases pr with
                | mk ls lc =>
                    have hL : consoleLog props minP time msgs level
                        = match exceptMapM
                            (fun m => consoleLogOne props minP time m level) msgs with
                          | .error e => .error e
                          | .ok outs => .ok outs.flatten := by
                      unfold consoleLog
                      rw [hb, hp]
                      simp only [if_pos hlen, hnotall, Bool.false_eq_true, if_false]
                      rfl
                    rw [hL, hfun]
                    cases hx : exceptMapM
                        (fun m => consoleLog props minP time [m] level) msgs with
                    | error e => rfl
                    | ok outs => rfl

/-- Concrete instantiation of `log_homogeneity`: the mixed batch
`("hello", a dict)` raises `TypeError`; the batch `("hello", "world")`
logs like — and produces — the single joined text `"hello world"`. -/
theorem log_homogeneity_witness :
    consoleLog initialRegistry.props 0 "[10:00:00]"
        [.str "hello", .dict [("a", .int 1)]] .none = Except.error .typeError ∧
    consoleLog initialRegistry.props 0 "[10:00:00]"
        [.str "hello", .str "world"] .none
      = consoleLog initialRegistry.props 0 "[10:00:00]"
          [.str (strJoin [.str "hello", .str "world"])] .none ∧
    consoleLog initialRegistry.props 0 "[10:00:00]"
        [.str "hello", .str "world"] .none = Except.ok ["[10:00:00] hello world"] :=
  ⟨(log_homogeneity initialRegistry.props 0 "[10:00:00]"
      [.str "hello", .dict [("a", .int 1)]] .none).1 rfl rfl,
   (log_homogeneity initialRegistry.props 0 "[10:00:00]"
      [.str "hello", .str "world"] .none).2.1 (by decide) rfl,
   rfl⟩

/-- C5 counterexample: logging the record `{"k": None}` to a fresh file
persists the key with the string `"None"` — `serialize` sends `None`
through the `str()` branch — not with a JSON null. -/
theorem null_value_cex :
    fileLoggerLog initialRegistry.props 0 "01/01/2025 00:00:00" true true true
        .emptyish [.dict [("k", .none)]] .none
      = Except.ok (.jsonArr
          [⟨"01/01/2025 00:00:00", Option.none, .dict [("k", .str "None")]⟩]) ∧
    PyVal.str "None" ≠ PyVal.none :=
  ⟨rfl, by simp⟩

/-- C5 amended: for a record with a null-valued key, the console sink
renders that key as a bare header line with no value suffix, while the
file sink persists that key with the string `"None"` (the `str()` of
`None`), not with a JSON null. -/
theorem null_value_render (props : List (PropKey × LevelProperties)) (minP : Int)
    (time now key : String) (st : FileContent) (prev : List LogEntry)
    (hread : fileReadLogs st = Option.some prev) :
    consoleLog props minP time [.dict [(key, .none)]] .none
      = Except.ok [time ++ " " ++ key] ∧
    fileLoggerLog props minP now true true true st [.dict [(key, .none)]] .none
      = Except.ok (.jsonArr
          (prev ++ [⟨now, Option.none, .dict [(key, .str "None")]⟩])) := by
  constructor
  · rfl
  · unfold fileLoggerLog fileWritePhase
    rw [hread]
    rfl

/-- Concrete instantiation of `null_value_render` on a file already
holding one entry. -/
theorem null_value_render_witness :
    consoleLog initialRegistry.props 0 "[09:00:00]" [.dict [("epoch", .none)]] .none
      = Except.ok ["[09:00:00] epoch"] ∧
    fileLoggerLog initialRegistry.props 0 "02/01/2025 00:00:00" true true true
        (.jsonArr [⟨"01/01/2025 00:00:00", Option.none, .str "old"⟩])
        [.dict [("epoch", .none)]] .none
      = Except.ok (.jsonArr
          [⟨"01/01/2025 00:00:00", Option.none, .str "old"⟩,
           ⟨"02/01/2025 00:00:00", Option.none, .dict [("epoch", .str "None")]⟩]) :=
  null_value_render initialRegistry.props 0 "[09:00:00]" "02/01/2025 00:00:00" "epoch"
    (.jsonArr [⟨"01/01/2025 00:00:00", Option.none, .str "old"⟩])
    [⟨"01/01/2025 00:00:00", Option.none, .str "old"⟩] rfl

/-- A write step that fails and is rolled back leaves the file's parsed
contents unchanged, whatever the read phase saw. -/
theorem fileWritePhase_rollback (st : FileContent) (m : PyVal) (level : LevelArg)
    (now : String) (ro : Bool) :
    fileReadLogs (fileWritePhase st m level now ro false true) = fileReadLogs st := by
  unfold fileWritePhase
  obtain ⟨r, hr⟩ := serializeE_total m
  rw [hr]
  cases ro with
  | false => rfl
  | true =>
      cases hst : fileReadLogs st with
      | none => simp [hst]
      | some prev => simp [hst, fileReadLogs]

/-- The per-record write loop of a multi-record call preserves the parsed
contents when every write fails and is rolled back. -/
theorem fileFold_rollback (level : LevelArg) (now : String) (ro : Bool) :
    ∀ (msgs : List PyVal) (st : FileContent),
      fileReadLogs
          (msgs.foldl (fun s m => fileWritePhase s m level now ro false true) st)
        = fileReadLogs st
  | [], _ => rfl
  | m :: ms, st => by
      rw [List.foldl_cons, fileFold_rollback level now ro ms _,
        fileWritePhase_rollback]

/-- C2: for every `FileLogger.log` call on which the read phase succeeds
but an exception is raised during the append-and-write step, a successful
rollback leaves the file's parsed contents after the call equal to its
contents before the call — the pre-modification array is rewritten, no
half-written state is observable. -/
theorem file_sink_rollback (props : List (PropKey × LevelProperties)) (minP : Int)
    (now : String) (st : FileContent) (msgs : List PyVal) (level : LevelArg)
    (prev : List LogEntry) (hread : fileReadLogs st = Option.some prev)
    (st2 : FileContent)
    (hrun : fileLoggerLog props minP now true false true st msgs level
        = Except.ok st2) :
    fileReadLogs st2 = Option.some prev := by
  rw [← hread]
  unfold fileLoggerLog at hrun
  cases hb : loggerLogBase props minP msgs level with
  | error e => rw [hb] at hrun; cases hrun
  | ok emit =>
      rw [hb] at hrun
      cases emit with
      | false =>
          simp only [Bool.not_false, if_true] at hrun
          cases hrun
          rfl
      | true =>
          simp only [Bool.not_true, Bool.false_eq_true, if_false] at hrun
          by_cases hlen : msgs.length > 1
          · rw [if_pos hlen] at hrun
            by_cases hall : (msgs.all fun m => pyHasStr m && !isPyDict m) = true
            · rw [if_pos hall] at hrun
              cases hrun
              exact fileWritePhase_rollback st _ level now true
            · rw [if_neg hall] at hrun
              cases hrun
              exact fileFold_rollback level now true msgs st
          · rw [if_neg hlen] at hrun
            cases msgs with
            | nil => cases hrun
            | cons m rest =>
                cases hrun
                exact fileWritePhase_rollback st m level now true

/-- Concrete instantiation of `file_sink_rollback`: a failed write to a
fresh (empty-ish) file rolls back to an empty array, whose parsed contents
equal the original's. -/
theorem file_sink_rollback_witness :
    fileLoggerLog initialRegistry.props 0 "02/02/2025 12:00:00" true false true
        .emptyish [.str "x"] .none = Except.ok (.jsonArr []) ∧
    fileReadLogs (.jsonArr []) = Option.some [] :=
  ⟨rfl,
    file_sink_rollback initialRegistry.props 0 "02/02/2025 12:00:00" .emptyish
      [.str "x"] .none [] rfl (.jsonArr []) rfl⟩

theorem runSinks_completed : ∀ l : List (Nat × Sink),
    (runSinks l).completed
      = (l.takeWhile fun p => p.2.emitOutcome.isNone).map Prod.fst
  | [] => rfl
  | (i, s) :: rest => by
      cases h : s.emitOutcome with
      | some e => simp [runSinks, h, List.takeWhile_cons]
      | none => simp [runSinks, h, List.takeWhile_cons, runSinks_completed rest]

theorem runSinks_err : ∀ l : List (Nat × Sink),
    (runSinks l).err
      = ((l.dropWhile fun p => p.2.emitOutcome.isNone).head?).bind
          fun p => p.2.emitOutcome
  | [] => rfl
  | (i, s) :: rest => by
      cases h : s.emitOutcome with
      | some e => simp [runSinks, h, List.dropWhile_cons]
      | none => simp [runSinks, h, List.dropWhile_cons, runSinks_err rest]

theorem runSinks_attempted : ∀ l : List (Nat × Sink),
    (runSinks l).attempted
      = (l.takeWhile fun p => p.2.emitOutcome.isNone).map Prod.fst
          ++ (((l.dropWhile fun p => p.2.emitOutcome.isNone).head?).map Prod.fst).toList
  | [] => rfl
  | (i, s) :: rest => by
      cases h : s.emitOutcome with
      | some e => simp [runSinks, h, List.takeWhile_cons, List.dropWhile_cons]
      | none =>
          simp [runSinks, h, List.takeWhile_cons, List.dropWhile_cons,
            runSinks_attempted rest]

theorem runSinks_all_ok : ∀ l : List (Nat × Sink),
    (∀ p ∈ l, p.2.emitOutcome = Option.none) →
      runSinks l = ⟨l.map Prod.fst, l.map Prod.fst, Option.none⟩
  | [], _ => rfl
  | (i, s) :: rest, h => by
      have hs : s.emitOutcome = Option.none := h (i, s) (by simp)
      have hrec := runSinks_all_ok rest fun p hp => h p (by simp [hp])
      simp [runSinks, hs, hrec]

/-- C3 counterexample: with an owned sink list `[A, B]`, no mask, and `A`
raising on its emit, the fan-out attempts only `A` — contrary to the claim,
`A`'s exception does prevent the remaining sink `B` from being attempted
(the loop of `MultiLogger.log` has no per-sink guard). A real instance:
`A` an `OptionalLogger` wrapping `None` (whose no-op lambda raises
`TypeError` on the dispatcher's `level=` keyword) and `B` a console sink. -/
theorem fanout_cex :
    multiLog [⟨.optionalSink, Option.some .typeError⟩, ⟨.console, Option.none⟩]
        [] Option.none
      = ⟨[0], [], Option.some .typeError⟩ ∧
    1 ∉ (multiLog [⟨.optionalSink, Option.some .typeError⟩, ⟨.console, Option.none⟩]
        [] Option.none).attempted :=
  ⟨rfl, by decide⟩

/-- C3 amended: with the effective mask (the per-call mask if given, else
the default), exactly the sinks that are not an instance of any masked
kind are selected; they are invoked in order, and when none of them raises
every one of them completes its emit. When an invoked sink raises, the
exception aborts the fan-out — the sinks after it are not attempted — but
the completed emits of the sinks before it persist: the completed list is
exactly the selected prefix before the first raising sink, and the
propagated exception is that sink's. -/
theorem fanout_amended (sinks : List Sink) (dmask : List SinkKind)
    (mask : Option (List SinkKind)) :
    ((∀ p ∈ maskSelect sinks (mask.getD dmask), p.2.emitOutcome = Option.none) →
        multiLog sinks dmask mask
          = ⟨(maskSelect sinks (mask.getD dmask)).map Prod.fst,
             (maskSelect sinks (mask.getD dmask)).map Prod.fst, Option.none⟩) ∧
    (multiLog sinks dmask mask).completed
      = ((maskSelect sinks (mask.getD dmask)).takeWhile
          fun p => p.2.emitOutcome.isNone).map Prod.fst ∧
    (multiLog sinks dmask mask).err
      = (((maskSelect sinks (mask.getD dmask)).dropWhile
          fun p => p.2.emitOutcome.isNone).head?).bind (fun p => p.2.emitOutcome) ∧
    (multiLog sinks dmask mask).attempted
      = ((maskSelect sinks (mask.getD dmask)).takeWhile
          fun p => p.2.emitOutcome.isNone).map Prod.fst
        ++ ((((maskSelect sinks (mask.getD dmask)).dropWhile
            fun p => p.2.emitOutcome.isNone).head?).map Prod.fst).toList :=
  ⟨fun h => runSinks_all_ok _ h, runSinks_completed _, runSinks_err _,
    runSinks_attempted _⟩

/-- Concrete instantiation of `fanout_amended`: with sinks `[A, B]` and
mask `{A}` only `B` is invoked; with no mask both are invoked and both
complete. -/
theorem fanout_amended_witness :
    multiLog [⟨.console, Option.none⟩, ⟨.file, Option.none⟩] []
        (Option.some [.console]) = ⟨[1], [1], Option.none⟩ ∧
    multiLog [⟨.console, Option.none⟩, ⟨.file, Option.none⟩] [] Option.none
      = ⟨[0, 1], [0, 1], Option.none⟩ :=
  ⟨(fanout_amended [⟨.console, Option.none⟩, ⟨.file, Option.none⟩] []
      (Option.some [.console])).1 (by decide),
   (fanout_amended [⟨.console, Option.none⟩, ⟨.file, Option.none⟩] []
      Option.none).1 (by decide)⟩

/-- C8 (the code slip): for an `OptionalLogger` wrapping an absent logger,
any operation called with positional arguments only is a silent no-op
(returns `None` without raising) — but the fallback `lambda *_: None` has
no keyword parameters, so a call carrying any keyword argument (e.g.
`log("hello", level=...)`) raises `TypeError`, contradicting the class's
own documented "nothing will happen (not even an error)". When a logger is
present, attribute access delegates to its bound attribute, falling back
to the no-op lambda only for attributes the wrapped logger lacks. -/
theorem optional_logger_behavior :
    (∀ (attr : String) (pos : List PyVal),
        optionalCall Option.none attr pos [] = Except.ok .none) ∧
    optionalCall Option.none "log" [.str "hello"] [("level", .str "info")]
      = Except.error .typeError ∧
    (∀ (w : WrappedLogger) (attr : String) (pos : List PyVal)
        (kw : List (String × PyVal)),
        optionalCall (Option.some w) attr pos kw
          = match w attr with
            | Option.some f => f pos kw
            | Option.none => callNoopLambda pos kw) := by
  refine ⟨fun attr pos => rfl, rfl, fun w attr pos kw => ?_⟩
  unfold optionalCall optGetAttr
  cases h : w attr with
  | some f => simp [h]
  | none => simp [h]

end Mloggers
